import Mathlib

/-!
Verification development for the doin-core consensus and economic engine.

The Python sources are shallowly embedded: float-valued quantities become
exact rationals (`ℚ`), Python strings become `String`, dictionaries become
association lists or update functions, and code paths that can raise an
uncaught exception return `Except`/`Option`.  SHA-256 is abstracted as a
parameter `h : String → String` wherever only its determinism matters.
Human-readable reason strings that interpolate numbers with percent
formatting are modelled by their fixed prefixes; no theorem depends on
reason text.
-/

namespace DoinCore

/-- Structural epsilon used throughout the sources (`1e-10`). -/
def eps10 : ℚ := 1 / 10 ^ 10

/-- Tolerance-band guard epsilon from `incentives.py` (`1e-9`). -/
def eps9 : ℚ := 1 / 10 ^ 9

-- ── Quorum (src/doin_core/models/quorum.py) ─────────────────────────

/-- Model of `QuorumConfig` from quorum.py.  `max_wait_seconds` is carried for
fidelity though no claim touches it. -/
structure QuorumConfig where
  min_evaluators : ℕ := 3
  quorum_fraction : ℚ := 67 / 100
  tolerance : ℚ := 5 / 100
  max_wait_seconds : ℚ := 3600
deriving DecidableEq

/-- Model of `VerificationVote` from quorum.py (timestamp elided: never read). -/
structure VerificationVote where
  evaluator_id : String
  verified_performance : ℚ
  used_synthetic : Bool := true
  synthetic_data_hash : String := ""
deriving DecidableEq

/-- Model of `QuorumState` from quorum.py. -/
structure QuorumState where
  optimae_id : String
  domain_id : String
  optimizer_id : String
  reported_performance : ℚ
  required_evaluators : List String := []
  votes : List VerificationVote := []
  decided : Bool := false
  accepted : Bool := false
  median_performance : Option ℚ := none
deriving DecidableEq

/-- Model of `QuorumState.voter_ids` from quorum.py (insertion order kept;
the Python set is only used for membership tests). -/
def QuorumState.voter_ids (s : QuorumState) : List String :=
  s.votes.map (·.evaluator_id)

/-- Model of `QuorumState.has_quorum` from quorum.py. -/
def QuorumState.has_quorum (s : QuorumState) : Bool :=
  if s.required_evaluators = [] then false
  else s.votes.length ≥ s.required_evaluators.length

/-- Model of `QuorumResult` from quorum.py.  The formatted `reason` string is
modelled by its fixed prefix (numeric interpolation elided). -/
structure QuorumResult where
  accepted : Bool
  reason : String := ""
  median_performance : Option ℚ := none
  reported_performance : Option ℚ := none
  report_divergence : Option ℚ := none
  agree_fraction : Option ℚ := none
  agreements : List (String × Bool) := []
  synthetic_data_hash : String := ""
deriving DecidableEq

/-- Python tuple comparison on `(hash, candidate_id)` pairs as used by
`scored.sort()` in `select_evaluators`. -/
def pairLe (a b : String × String) : Bool :=
  a.1 < b.1 ∨ (a.1 = b.1 ∧ a.2 ≤ b.2)

/-- Model of `QuorumManager.select_evaluators` from quorum.py, with SHA-256
abstracted as `h`.  Returns the selected evaluators together with the
`QuorumState` stored into `_pending` (`none` when no candidates exist,
in which case Python returns early without creating a state). -/
def select_evaluators (h : String → String) (cfg : QuorumConfig)
    (optimae_id domain_id optimizer_id : String)
    (reported_performance : ℚ) (eligible_evaluators : List String)
    (chain_tip_hash : String) : List String × Option QuorumState :=
  let candidates := eligible_evaluators.filter (fun e => e ≠ optimizer_id)
  if candidates.length = 0 then ([], none)
  else
    let k := min cfg.min_evaluators candidates.length
    let seed := h (chain_tip_hash ++ ":" ++ optimae_id)
    let scored := candidates.map (fun c => (h (seed ++ ":" ++ c), c))
    let sorted := scored.mergeSort pairLe
    let selected := (sorted.take k).map (·.2)
    (selected,
     some { optimae_id := optimae_id, domain_id := domain_id,
            optimizer_id := optimizer_id,
            reported_performance := reported_performance,
            required_evaluators := selected })

/-- Model of `QuorumManager.add_vote` from quorum.py, per state (the manager
looks the state up in `_pending` by optimae id; the "not found" early
return lives at that dictionary layer).  Returns the updated state and,
as in Python, `some state` exactly when quorum is now reached. -/
def add_vote (s : QuorumState) (evaluator_id : String)
    (verified_performance : ℚ) (used_synthetic : Bool := true)
    (synthetic_data_hash : String := "") :
    QuorumState × Option QuorumState :=
  if s.decided then (s, none)
  else if evaluator_id ∉ s.required_evaluators then (s, none)
  else if evaluator_id ∈ s.voter_ids then (s, none)
  else
    let s' := { s with votes := s.votes ++
      [{ evaluator_id := evaluator_id,
         verified_performance := verified_performance,
         used_synthetic := used_synthetic,
         synthetic_data_hash := synthetic_data_hash }] }
    (s', if s'.has_quorum then some s' else none)

/-- Model of `statistics.median`: sort ascending; odd length takes the middle
element, even length averages the two middle elements. -/
def median (l : List ℚ) : ℚ :=
  let s := l.mergeSort (fun a b => a ≤ b)
  let n := l.length
  if n % 2 = 1 then s.getD (n / 2) 0
  else (s.getD (n / 2 - 1) 0 + s.getD (n / 2) 0) / 2

/-- Python dict insertion: replace the value in place if the key is
present, else append (insertion order preserved). -/
def updateAssoc (l : List (String × Bool)) (k : String) (v : Bool) :
    List (String × Bool) :=
  match l with
  | [] => [(k, v)]
  | (k', v') :: t =>
      if k' = k then (k, v) :: t else (k', v') :: updateAssoc t k v

/-- Divergence of a value from the median as computed inside
`evaluate_quorum`: relative when `|median| > 1e-10`, else absolute. -/
def divergenceFrom (median_perf v : ℚ) : ℚ :=
  if |median_perf| > eps10 then |v - median_perf| / |median_perf|
  else |v - median_perf|

/-- Model of `QuorumManager.evaluate_quorum` from quorum.py, per state.  The
"not found" branch lives at the `_pending` dictionary layer.  Returns
the mutated state and the `QuorumResult`. -/
def evaluate_quorum (cfg : QuorumConfig) (s : QuorumState) :
    QuorumState × QuorumResult :=
  let performances := s.votes.map (·.verified_performance)
  if performances = [] then
    (s, { accepted := false, reason := "no votes" })
  else
    let median_perf := median performances
    let s₁ := { s with median_performance := some median_perf }
    let agreements := s.votes.foldl
      (fun acc v => updateAssoc acc v.evaluator_id
        (divergenceFrom median_perf v.verified_performance ≤ cfg.tolerance))
      []
    let agree_count : ℕ := (agreements.filter (·.2)).length
    let agree_fraction : ℚ := (agree_count : ℚ) / (s.votes.length : ℚ)
    let report_divergence :=
      divergenceFrom median_perf s.reported_performance
    let report_matches := report_divergence ≤ cfg.tolerance
    let accepted : Bool :=
      agree_fraction ≥ cfg.quorum_fraction ∧ report_matches
    let s₂ := { s₁ with decided := true, accepted := accepted }
    (s₂,
     { accepted := accepted,
       median_performance := some median_perf,
       reported_performance := some s.reported_performance,
       report_divergence := some report_divergence,
       agree_fraction := some agree_fraction,
       agreements := agreements,
       reason := if accepted then "accepted"
         else if ¬(agree_fraction ≥ cfg.quorum_fraction) then
           "quorum disagreement"
         else "report diverges from median" })

-- ── Coin (src/doin_core/models/coin.py) ─────────────────────────────

def INITIAL_BLOCK_REWARD : ℚ := 50
def HALVING_INTERVAL : ℕ := 210000
def MAX_SUPPLY : ℚ := 21000000
def GENERATOR_FEE_FRACTION : ℚ := 5 / 100
def OPTIMIZER_POOL_FRACTION : ℚ := 65 / 100
def EVALUATOR_POOL_FRACTION : ℚ := 30 / 100
def MIN_REWARD : ℚ := 1 / 10 ^ 8

/-- Model of `CoinbaseOutput` from coin.py. -/
structure CoinbaseOutput where
  recipient : String
  amount : ℚ
  reason : String := ""
  domain_id : String := ""
deriving DecidableEq

/-- Model of `CoinbaseTransaction` from coin.py (timestamp elided: never read by
the distribution or balance logic). -/
structure CoinbaseTransaction where
  block_index : ℕ
  block_reward : ℚ
  outputs : List CoinbaseOutput := []
deriving DecidableEq

/-- Model of `TransferTransaction` from coin.py (timestamp elided). -/
structure TransferTransaction where
  sender : String
  recipient : String
  amount : ℚ
  fee : ℚ := 0
  nonce : ℤ := 0
deriving DecidableEq

/-- Model of `ContributorWork` from coin.py. -/
structure ContributorWork where
  peer_id : String
  role : String
  domain_id : String := ""
  weight : ℚ := 0
  effective_increment : ℚ := 0
  reward_fraction : ℚ := 0
  agreed_with_quorum : Bool := true
  evaluations_completed : ℤ := 0
deriving DecidableEq

/-- Model of `compute_block_reward` from coin.py (block heights are the
non-negative Python ints produced by the chain). -/
def compute_block_reward (block_index : ℕ) : ℚ :=
  let halvings := block_index / HALVING_INTERVAL
  if halvings ≥ 64 then 0
  else
    let reward := INITIAL_BLOCK_REWARD / 2 ^ halvings
    if reward < MIN_REWARD then 0 else reward

/-- The `while remaining > 0 and epoch < 64` loop of
`compute_total_supply_at`, with the loop counter `epoch` driven by the
remaining fuel `64 - epoch`. -/
def supplyLoop : (fuel : ℕ) → (remaining : ℕ) → (epoch : ℕ) → ℚ
  | 0, _, _ => 0
  | fuel + 1, remaining, epoch =>
      if remaining = 0 then 0
      else
        let reward := INITIAL_BLOCK_REWARD / 2 ^ epoch
        if reward < MIN_REWARD then 0
        else
          let blocks_in_epoch := min remaining HALVING_INTERVAL
          (blocks_in_epoch : ℚ) * reward +
            supplyLoop fuel (remaining - blocks_in_epoch) (epoch + 1)

/-- Model of `compute_total_supply_at` from coin.py: the loop starts with
`remaining = block_index + 1` and `epoch = 0`, runs while `epoch < 64`,
and the result is capped at `MAX_SUPPLY`. -/
def compute_total_supply_at (block_index : ℕ) : ℚ :=
  min (supplyLoop 64 (block_index + 1) 0) MAX_SUPPLY

/-- All `CoinbaseOutput.amount`s summed (`total_distributed`). -/
def outputsTotal (outputs : List CoinbaseOutput) : ℚ :=
  (outputs.map (·.amount)).sum

/-- Bump the first output's amount, as Python's
`outputs[0].amount += x` does; raises `IndexError` on an empty list. -/
def bumpHead (outputs : List CoinbaseOutput) (x : ℚ) :
    Except String (List CoinbaseOutput) :=
  match outputs with
  | [] => Except.error "IndexError"
  | o :: rest => Except.ok ({ o with amount := o.amount + x } :: rest)

/-- Model of `distribute_block_reward` from coin.py.  The mempool order of
emitted outputs follows the source: generator output first (when at
least `MIN_REWARD`), then optimizer shares, then evaluator shares.
The `outputs[0].amount += evaluator_pool if outputs else 0` statement
evaluates `outputs[0]` unconditionally, so it raises `IndexError` on an
empty output list; that path is the `Except.error` case. -/
def distribute_block_reward (block_index : ℕ) (generator_id : String)
    (contributors : List ContributorWork) (tx_fees : ℚ := 0) :
    Except String CoinbaseTransaction :=
  let block_reward := compute_block_reward block_index
  let total_reward := block_reward + tx_fees
  if total_reward ≤ 0 then
    Except.ok { block_index := block_index, block_reward := 0 }
  else
    -- 1. Generator fee
    let generator_reward := total_reward * GENERATOR_FEE_FRACTION + tx_fees
    let outputs₀ : List CoinbaseOutput :=
      if generator_reward ≥ MIN_REWARD then
        [{ recipient := generator_id, amount := generator_reward,
           reason := "block_generator" }]
      else []
    let distributable := total_reward - total_reward * GENERATOR_FEE_FRACTION
    let optimizers := contributors.filter (fun c => c.role = "optimizer")
    let evaluators := contributors.filter (fun c => c.role = "evaluator")
    -- 2. Optimizer pool
    let optimizer_pool := distributable * OPTIMIZER_POOL_FRACTION
    let total_opt_weight :=
      (optimizers.map (fun c => c.effective_increment * c.reward_fraction)).sum
    let optOutputs : List CoinbaseOutput :=
      if total_opt_weight > 0 ∧ optimizer_pool ≥ MIN_REWARD then
        optimizers.filterMap (fun c =>
          let weight := c.effective_increment * c.reward_fraction
          if weight ≤ 0 then none
          else
            let share := optimizer_pool * (weight / total_opt_weight)
            if share ≥ MIN_REWARD then
              some { recipient := c.peer_id, amount := share,
                     reason := "optimizer", domain_id := c.domain_id }
            else none)
      else []
    let evaluator_bonus : ℚ :=
      if total_opt_weight > 0 ∧ optimizer_pool ≥ MIN_REWARD then 0
      else if optimizer_pool ≥ MIN_REWARD then optimizer_pool
      else 0
    let outputs₁ := outputs₀ ++ optOutputs
    -- 3. Evaluator pool
    let evaluator_pool := distributable * EVALUATOR_POOL_FRACTION + evaluator_bonus
    let total_eval_weight :=
      (evaluators.map (fun c =>
        (c.evaluations_completed : ℚ) * (if c.agreed_with_quorum then 1 else 0))).sum
    let outputs₂ : Except String (List CoinbaseOutput) :=
      if total_eval_weight > 0 ∧ evaluator_pool ≥ MIN_REWARD then
        Except.ok (outputs₁ ++ evaluators.filterMap (fun c =>
          if ¬c.agreed_with_quorum then none
          else
            let weight := (c.evaluations_completed : ℚ)
            if weight ≤ 0 then none
            else
              let share := evaluator_pool * (weight / total_eval_weight)
              if share ≥ MIN_REWARD then
                some { recipient := c.peer_id, amount := share,
                       reason := "evaluator", domain_id := c.domain_id }
              else none))
      else if evaluator_pool ≥ MIN_REWARD then bumpHead outputs₁ evaluator_pool
      else Except.ok outputs₁
    match outputs₂ with
    | Except.error e => Except.error e
    | Except.ok outs =>
        -- Undistributed remainder goes to the first output
        let distributed := outputsTotal outs
        let remainder := total_reward - distributed
        if remainder ≥ MIN_REWARD ∧ outs ≠ [] then
          match bumpHead outs remainder with
          | Except.error e => Except.error e
          | Except.ok outs' =>
              Except.ok { block_index := block_index,
                          block_reward := block_reward, outputs := outs' }
        else
          Except.ok { block_index := block_index,
                      block_reward := block_reward, outputs := outs }

-- ── Balances (`BalanceTracker`, coin.py) ────────────────────────────

/-- Model of `BalanceTracker` state: `_balances` and `_nonces` are Python dicts
with defaults `0.0` / `0`, modelled as total functions (the dict `get`
default), plus `_total_minted`. -/
structure BalanceState where
  balances : String → ℚ
  nonces : String → ℤ
  total_minted : ℚ

/-- A freshly constructed `BalanceTracker`. -/
def BalanceState.init : BalanceState :=
  { balances := fun _ => 0, nonces := fun _ => 0, total_minted := 0 }

/-- Pointwise dictionary write. -/
def writeMap {β : Type} (m : String → β) (k : String) (v : β) :
    String → β :=
  fun x => if x = k then v else m x

/-- Model of `BalanceTracker.apply_coinbase` from coin.py. -/
def apply_coinbase (st : BalanceState) (cb : CoinbaseTransaction) :
    BalanceState :=
  { balances := cb.outputs.foldl
      (fun b o => writeMap b o.recipient (b o.recipient + o.amount))
      st.balances,
    nonces := st.nonces,
    total_minted := st.total_minted + cb.block_reward }

/-- Model of `BalanceTracker.apply_transfer` from coin.py.  Returns the updated
state together with Python's `(success, reason)` pair; the recipient
credit reads the balance map after the sender debit, exactly as the
source does (so a self-transfer nets to `-fee`). -/
def apply_transfer (st : BalanceState) (t : TransferTransaction) :
    BalanceState × Bool × String :=
  let sender_balance := st.balances t.sender
  let total_debit := t.amount + t.fee
  if total_debit ≤ 0 then (st, false, "Amount must be positive")
  else if sender_balance < total_debit then
    (st, false, "Insufficient balance")
  else if t.nonce ≠ st.nonces t.sender + 1 then
    (st, false, "Invalid nonce")
  else
    let b₁ := writeMap st.balances t.sender (sender_balance - total_debit)
    let b₂ := writeMap b₁ t.recipient (b₁ t.recipient + t.amount)
    ({ balances := b₂,
       nonces := writeMap st.nonces t.sender t.nonce,
       total_minted := st.total_minted },
     true, "")

-- ── Incentives (src/doin_core/consensus/incentives.py) ──────────────

/-- Model of `IncentiveConfig` from incentives.py. -/
structure IncentiveConfig where
  higher_is_better : Bool := true
  tolerance_margin : ℚ := 10 / 100
  bonus_threshold : ℚ := 5 / 100
  min_reward_fraction : ℚ := 3 / 10
  max_bonus_multiplier : ℚ := 12 / 10
deriving DecidableEq

/-- The relative gap computed inside `compute_reward_fraction`:
`gap / |reported|` when `|reported| > 1e-10`, else the absolute gap. -/
def relativeGap (reported verified : ℚ) (cfg : IncentiveConfig) : ℚ :=
  let gap := if cfg.higher_is_better then reported - verified
             else verified - reported
  let abs_reported := |reported|
  if abs_reported > eps10 then gap / abs_reported else gap

/-- Model of `compute_reward_fraction` from incentives.py.  In the in-tolerance
branch Python divides by `tolerance_margin` unguarded (a zero margin
would raise `ZeroDivisionError`); the embedding uses Lean's `x / 0 = 0`
there and every theorem assumes `0 < tolerance_margin`. -/
def compute_reward_fraction (reported verified : ℚ)
    (cfg : IncentiveConfig) : ℚ :=
  let relative_gap := relativeGap reported verified cfg
  if relative_gap < 0 then
    let bonus_fraction := |relative_gap|
    if bonus_fraction ≤ cfg.bonus_threshold then
      let t := if cfg.bonus_threshold > 0 then
        bonus_fraction / cfg.bonus_threshold else 0
      1 + t * (cfg.max_bonus_multiplier - 1)
    else cfg.max_bonus_multiplier
  else if relative_gap ≤ eps10 then 1
  else if relative_gap ≤ cfg.tolerance_margin + eps9 then
    let t := relative_gap / cfg.tolerance_margin
    1 - t * (1 - cfg.min_reward_fraction)
  else 0

-- ── Finality (src/doin_core/consensus/finality.py) ──────────────────

/-- Model of `Checkpoint` from finality.py (timestamp elided). -/
structure Checkpoint where
  block_height : ℤ
  block_hash : String
  source : String := "implicit"
deriving DecidableEq

/-- Model of `FinalityManager.finalized_height`: the height of the latest (last
appended) checkpoint, `-1` when none exists. -/
def finalized_height (checkpoints : List Checkpoint) : ℤ :=
  match checkpoints.getLast? with
  | none => -1
  | some cp => cp.block_height

/-- Model of `FinalityManager.add_checkpoint` from finality.py.  `none` models
the `ValueError` raised when the new height does not strictly advance
past the last checkpoint. -/
def add_checkpoint (checkpoints : List Checkpoint) (block_height : ℤ)
    (block_hash : String) (source : String := "explicit") :
    Option (List Checkpoint × Checkpoint) :=
  match checkpoints.getLast? with
  | some last =>
      if block_height ≤ last.block_height then none
      else
        let cp : Checkpoint :=
          { block_height := block_height, block_hash := block_hash,
            source := source }
        some (checkpoints ++ [cp], cp)
  | none =>
      let cp : Checkpoint :=
        { block_height := block_height, block_hash := block_hash,
          source := source }
      some (checkpoints ++ [cp], cp)

/-- Model of `FinalityManager.on_new_block` from finality.py. -/
def on_new_block (checkpoints : List Checkpoint)
    (confirmation_depth : ℤ) (chain_height : ℤ)
    (block_hash_at_depth : Option String) :
    List Checkpoint × Option Checkpoint :=
  match block_hash_at_depth with
  | none => (checkpoints, none)
  | some hash =>
      let candidate_height := chain_height - confirmation_depth
      if candidate_height ≤ finalized_height checkpoints then
        (checkpoints, none)
      else
        let cp : Checkpoint :=
          { block_height := candidate_height, block_hash := hash,
            source := "implicit" }
        (checkpoints ++ [cp], some cp)

/-- Model of `FinalityManager.is_reorg_allowed` from finality.py. -/
def is_reorg_allowed (checkpoints : List Checkpoint)
    (reorg_depth chain_height : ℤ) : Bool :=
  chain_height - reorg_depth > finalized_height checkpoints

-- ── Fee market (src/doin_core/models/fee_market.py) ─────────────────

def MIN_BASE_FEE : ℚ := 1 / 1000
def MEMPOOL_SIZE_LIMIT : ℕ := 10000
def OPTIMAE_STAKE_MULTIPLIER : ℚ := 5

/-- One `(-fee, timestamp, tx_id, tx_data)` mempool tuple from
fee_market.py (the opaque `tx_data` dict elided; it does not affect
admission or eviction). -/
structure MempoolEntry where
  neg_fee : ℚ
  time : ℚ
  tx_id : String
deriving DecidableEq

/-- Python tuple comparison on mempool entries, as used by
`self._mempool.sort()`. -/
def entryLe (a b : MempoolEntry) : Bool :=
  a.neg_fee < b.neg_fee ∨
    (a.neg_fee = b.neg_fee ∧
      (a.time < b.time ∨ (a.time = b.time ∧ a.tx_id ≤ b.tx_id)))

/-- Model of `max(item[0] for item in mempool)`: the largest stored `-fee`,
i.e. the negated lowest fee. -/
def worstPriority (mempool : List MempoolEntry) : ℚ :=
  ((mempool.map (·.neg_fee)).max?).getD 0

/-- Model of `FeeMarket.add_to_mempool` from fee_market.py with an empty
`peer_id` (the default, which skips rate limiting), given the current
`base_fee`.  `validate_fee` is inlined as in the source.  The mempool is
modelled as the multiset of entries: `heappush` appends, and the
`sort(); pop()` eviction removes the greatest tuple (the lowest-fee
entry, newest first on ties), matching Python's multiset behaviour. -/
def add_to_mempool (base_fee : ℚ) (mempool : List MempoolEntry)
    (tx_id : String) (fee : ℚ) (is_optimae : Bool) (now : ℚ) :
    List MempoolEntry × Bool × String :=
  -- validate_fee
  if is_optimae ∧ fee < base_fee * OPTIMAE_STAKE_MULTIPLIER then
    (mempool, false, "Optimae stake below minimum")
  else if ¬is_optimae ∧ fee < base_fee then
    (mempool, false, "Fee below base fee")
  else if mempool.length ≥ MEMPOOL_SIZE_LIMIT ∧ mempool ≠ [] then
    if -fee ≤ worstPriority mempool then
      (mempool, false, "Mempool full and fee too low")
    else
      let evicted := (mempool.mergeSort entryLe).dropLast
      (evicted ++ [{ neg_fee := -fee, time := now, tx_id := tx_id }],
       true, "")
  else
    (mempool ++ [{ neg_fee := -fee, time := now, tx_id := tx_id }],
     true, "")

-- ── Payment channels (src/doin_core/models/payment_channel.py) ──────

/-- Model of `ChannelState` from payment_channel.py. -/
inductive ChannelLifecycle where
  | opening
  | opened
  | closing
  | disputed
  | closed
deriving DecidableEq

/-- Model of `PaymentUpdate` from payment_channel.py (signatures and wall-clock
timestamp elided: never read by `pay` or the invariant). -/
structure PaymentUpdate where
  channel_id : String
  nonce : ℤ
  sender_balance : ℚ
  receiver_balance : ℚ
deriving DecidableEq

/-- Model of `PaymentChannel` from payment_channel.py. -/
structure PaymentChannel where
  channel_id : String
  sender_id : String
  receiver_id : String
  deposit : ℚ
  state : ChannelLifecycle := ChannelLifecycle.opening
  expires_at : ℚ := 0
  dispute_period : ℚ := 3600
  sender_balance : ℚ := 0
  receiver_balance : ℚ := 0
  nonce : ℤ := 0
  latest_update : Option PaymentUpdate := none
deriving DecidableEq

/-- Model of `PaymentChannel.__post_init__`: a channel constructed with both
balances zero is seeded with `sender_balance = deposit`. -/
def postInit (c : PaymentChannel) : PaymentChannel :=
  if c.sender_balance = 0 ∧ c.receiver_balance = 0 then
    { c with sender_balance := c.deposit, receiver_balance := 0 }
  else c

/-- Model of `PaymentChannel.is_active` from payment_channel.py. -/
def PaymentChannel.is_active (c : PaymentChannel) : Bool :=
  c.state = ChannelLifecycle.opened

/-- Model of `PaymentChannel.is_expired` from payment_channel.py, with the
ambient `time.time()` passed in as `now`. -/
def PaymentChannel.is_expired (c : PaymentChannel) (now : ℚ) : Bool :=
  c.expires_at > 0 ∧ now > c.expires_at

/-- Model of `ChannelConfig` from payment_channel.py. -/
structure ChannelConfig where
  min_deposit : ℚ := 1
  max_deposit : ℚ := 10000
  default_expiry : ℚ := 86400
  dispute_period : ℚ := 3600
  max_channels_per_peer : ℕ := 10
  settlement_fee_fraction : ℚ := 1 / 1000
deriving DecidableEq

/-- Model of `PaymentChannelManager` state: the `_channels` dict as an
association list in insertion order, `_peer_channels` as a lookup of
channel-id lists, and the running totals. -/
structure ChannelManagerState where
  channels : List (String × PaymentChannel) := []
  peer_channels : String → List String := fun _ => []
  total_locked : ℚ := 0

/-- Association-list lookup standing for Python `dict.get`. -/
def lookupChannel (chs : List (String × PaymentChannel)) (cid : String) :
    Option PaymentChannel :=
  (chs.find? (fun p => p.1 = cid)).map (·.2)

/-- Replace the stored channel under its id (in-place mutation of the
dict entry in the source). -/
def setChannel (chs : List (String × PaymentChannel)) (cid : String)
    (c : PaymentChannel) : List (String × PaymentChannel) :=
  chs.map (fun p => if p.1 = cid then (cid, c) else p)

/-- Model of `PaymentChannelManager.open_channel` from payment_channel.py, with
`time.time()` passed as `now`.  Returns the updated manager and
Python's `(channel | None, error)` pair. -/
def open_channel (cfg : ChannelConfig) (st : ChannelManagerState)
    (channel_id sender_id receiver_id : String) (deposit : ℚ)
    (expiry : Option ℚ) (now : ℚ) :
    ChannelManagerState × Option PaymentChannel × String :=
  if deposit < cfg.min_deposit then (st, none, "Deposit below minimum")
  else if deposit > cfg.max_deposit then (st, none, "Deposit above maximum")
  else if (lookupChannel st.channels channel_id).isSome then
    (st, none, "Channel already exists")
  else if sender_id = receiver_id then
    (st, none, "Cannot open channel with yourself")
  else if (st.peer_channels sender_id).length ≥ cfg.max_channels_per_peer then
    (st, none, "Peer has too many channels")
  else
    let channel := postInit
      { channel_id := channel_id, sender_id := sender_id,
        receiver_id := receiver_id, deposit := deposit,
        state := ChannelLifecycle.opened,
        expires_at := now + expiry.getD cfg.default_expiry,
        dispute_period := cfg.dispute_period }
    ({ channels := st.channels ++ [(channel_id, channel)],
       peer_channels := fun p =>
         if p = sender_id ∨ p = receiver_id then
           st.peer_channels p ++ [channel_id]
         else st.peer_channels p,
       total_locked := st.total_locked + deposit },
     some channel, "")

/-- Model of `PaymentChannelManager.pay` from payment_channel.py, with
`time.time()` passed as `now`. -/
def pay (st : ChannelManagerState) (channel_id : String) (amount : ℚ)
    (sender_id : String) (now : ℚ) :
    ChannelManagerState × Option PaymentUpdate × String :=
  match lookupChannel st.channels channel_id with
  | none => (st, none, "Channel not found")
  | some channel =>
      if ¬channel.is_active then (st, none, "Channel not active")
      else if channel.is_expired now then (st, none, "Channel expired")
      else if sender_id ≠ channel.sender_id then
        (st, none, "Only the sender can make payments")
      else if amount ≤ 0 then
        (st, none, "Payment amount must be positive")
      else if amount > channel.sender_balance then
        (st, none, "Insufficient balance")
      else
        let channel₁ :=
          { channel with
            sender_balance := channel.sender_balance - amount,
            receiver_balance := channel.receiver_balance + amount,
            nonce := channel.nonce + 1 }
        let update : PaymentUpdate :=
          { channel_id := channel_id, nonce := channel₁.nonce,
            sender_balance := channel₁.sender_balance,
            receiver_balance := channel₁.receiver_balance }
        let channel₂ := { channel₁ with latest_update := some update }
        ({ st with channels := setChannel st.channels channel_id channel₂ },
         some update, "")

-- ── Reachability and concrete instances used by the theorems ────────

/-- Quorum states reachable through `QuorumManager` operations: created
by `select_evaluators`, then evolved by `add_vote` and
`evaluate_quorum`. -/
inductive QuorumReachable : QuorumState → Prop where
  | created (h : String → String) (cfg : QuorumConfig)
      (optimae_id domain_id optimizer_id : String) (reported : ℚ)
      (eligible : List String) (tip : String) (s : QuorumState) :
      (select_evaluators h cfg optimae_id domain_id optimizer_id
        reported eligible tip).2 = some s → QuorumReachable s
  | voted (s : QuorumState) (e : String) (p : ℚ) (u : Bool)
      (sh : String) : QuorumReachable s →
      QuorumReachable (add_vote s e p u sh).1
  | evaluated (cfg : QuorumConfig) (s : QuorumState) :
      QuorumReachable s → QuorumReachable (evaluate_quorum cfg s).1

/-- The per-candidate selection score `H(seed : candidate_id)` of
`select_evaluators`. -/
def scoreOf (h : String → String) (seed c : String) : String :=
  h (seed ++ ":" ++ c)

/-- The identity "hash", a concrete instance of the abstracted SHA-256
for witnesses (only determinism and the induced order matter). -/
def idHash : String → String := fun s => s

/-- C1 counterexample state: two required evaluators, one recorded
vote agreeing exactly with the reported performance. -/
def quorumCexState : QuorumState :=
  { optimae_id := "o1", domain_id := "d1", optimizer_id := "opt",
    reported_performance := 1,
    required_evaluators := ["e1", "e2"],
    votes := [{ evaluator_id := "e1", verified_performance := 1 }] }

/-- C1 amended-claim witness state: full quorum of three distinct
votes `[1, 1, 2]` against reported performance 1. -/
def quorumAmendedWitnessState : QuorumState :=
  { optimae_id := "o3", domain_id := "d3", optimizer_id := "opt",
    reported_performance := 1,
    required_evaluators := ["a", "b", "c"],
    votes := [{ evaluator_id := "a", verified_performance := 1 },
              { evaluator_id := "b", verified_performance := 1 },
              { evaluator_id := "c", verified_performance := 2 }] }

/-- C3 failing state: a single coinbase credit of 10 to "alice"
applied to a fresh tracker. -/
def transferCexState : BalanceState :=
  apply_coinbase BalanceState.init
    { block_index := 1, block_reward := 50,
      outputs := [{ recipient := "alice", amount := 10 }] }

/-- C3 failing transfer: negative amount covered by the fee. -/
def transferCexTx : TransferTransaction :=
  { sender := "alice", recipient := "bob", amount := -1, fee := 2,
    nonce := 1 }

/-- C2 failing coinbase: block 1 (reward 50), no contributors, 10 in
fees; the code emits a single generator output of 67.15. -/
def coinbaseCexResult : CoinbaseTransaction :=
  { block_index := 1, block_reward := 50,
    outputs := [{ recipient := "g", amount := 1343 / 20,
                  reason := "block_generator" }] }

/-- C7 failing mempool entry: fee 1/100 (above the initial base fee). -/
def mempoolCexEntry : MempoolEntry :=
  { neg_fee := -(1 / 100), time := 0, tx_id := "old" }

/-- C7 failing mempool: exactly at the 10_000-entry size bound. -/
def mempoolCexPool : List MempoolEntry :=
  List.replicate MEMPOOL_SIZE_LIMIT mempoolCexEntry

/-- C10 witness: the quorum state created by `select_evaluators` with
the identity hash on eligible evaluators `["a", "b", "opt"]`. -/
def quorumWitnessState0 : QuorumState :=
  { optimae_id := "o2", domain_id := "d2", optimizer_id := "opt",
    reported_performance := 1, required_evaluators := ["a", "b"] }

/-- C10 witness: the same state after evaluator "a" votes. -/
def quorumWitnessState1 : QuorumState :=
  (add_vote quorumWitnessState0 "a" (1 / 2) true "").1

/-- C8 witness: the channel produced by opening `(alice → bob, 100)`
at time 0 under the default configuration. -/
def channelWitnessChannel : PaymentChannel :=
  { channel_id := "c1", sender_id := "alice", receiver_id := "bob",
    deposit := 100, state := ChannelLifecycle.opened,
    expires_at := 86400, dispute_period := 3600,
    sender_balance := 100, receiver_balance := 0, nonce := 0 }

/-- C8 witness: the manager state after that `open_channel` call. -/
def channelWitnessSt : ChannelManagerState :=
  (open_channel {} {} "c1" "alice" "bob" 100 none 0).1

/-- C8 witness: the update returned by paying 10 in that channel. -/
def channelWitnessUpdate : PaymentUpdate :=
  { channel_id := "c1", nonce := 1, sender_balance := 90,
    receiver_balance := 10 }

-- ════════════════════════ Theorems ═════════════════════════════════

-- ── Shared helper lemmas ────────────────────────────────────────────

theorem supplyLoop_nonneg (fuel : ℕ) :
    ∀ remaining epoch, 0 ≤ supplyLoop fuel remaining epoch := by
  induction fuel with
  | zero => intro r e; simp [supplyLoop]
  | succ f ih =>
      intro r e
      simp only [supplyLoop]
      split
      · exact le_refl 0
      · split
        · exact le_refl 0
        · have h₁ : (0 : ℚ) ≤ (min r HALVING_INTERVAL : ℕ) := by positivity
          have h₂ : (0 : ℚ) ≤ INITIAL_BLOCK_REWARD / 2 ^ e := by
            unfold INITIAL_BLOCK_REWARD; positivity
          have := ih (r - min r HALVING_INTERVAL) (e + 1)
          nlinarith

theorem supplyLoop_mono (fuel : ℕ) :
    ∀ r₁ r₂ epoch, r₁ ≤ r₂ →
      supplyLoop fuel r₁ epoch ≤ supplyLoop fuel r₂ epoch := by
  induction fuel with
  | zero => intro r₁ r₂ e _; simp [supplyLoop]
  | succ f ih =>
      intro r₁ r₂ e hr
      by_cases h₁ : r₁ = 0
      · simp only [supplyLoop, h₁, if_pos rfl]
        exact supplyLoop_nonneg (f + 1) r₂ e
      · have h₂ : r₂ ≠ 0 := by omega
        simp only [supplyLoop, if_neg h₁, if_neg h₂]
        split
        · exact le_refl 0
        · have hb : min r₁ HALVING_INTERVAL ≤ min r₂ HALVING_INTERVAL := by
            omega
          have hrw : (0 : ℚ) ≤ INITIAL_BLOCK_REWARD / 2 ^ e := by
            unfold INITIAL_BLOCK_REWARD; positivity
          have hmul : ((min r₁ HALVING_INTERVAL : ℕ) : ℚ) *
              (INITIAL_BLOCK_REWARD / 2 ^ e) ≤
              ((min r₂ HALVING_INTERVAL : ℕ) : ℚ) *
              (INITIAL_BLOCK_REWARD / 2 ^ e) := by
            have : ((min r₁ HALVING_INTERVAL : ℕ) : ℚ) ≤
                ((min r₂ HALVING_INTERVAL : ℕ) : ℚ) := by
              exact_mod_cast hb
            nlinarith
          have hrec := ih (r₁ - min r₁ HALVING_INTERVAL)
            (r₂ - min r₂ HALVING_INTERVAL) (e + 1) (by omega)
          linarith

-- ── C9 ──────────────────────────────────────────────────────────────

/-- C9: `compute_total_supply_at` is monotone in the block height and
never exceeds `MAX_SUPPLY` (21_000_000). -/
theorem total_supply_monotone_bounded :
    (∀ h₁ h₂ : ℕ, h₁ ≤ h₂ →
      compute_total_supply_at h₁ ≤ compute_total_supply_at h₂) ∧
    (∀ h : ℕ, compute_total_supply_at h ≤ MAX_SUPPLY) := by
  constructor
  · intro h₁ h₂ hle
    unfold compute_total_supply_at
    exact min_le_min (supplyLoop_mono 64 (h₁ + 1) (h₂ + 1) 0 (by omega))
      (le_refl _)
  · intro h
    unfold compute_total_supply_at
    exact min_le_right _ _

/-- Witness for C9 at heights 0 ≤ 1 and at height 5. -/
theorem total_supply_monotone_bounded_witness :
    (0 : ℕ) ≤ 1 ∧
      compute_total_supply_at 0 ≤ compute_total_supply_at 1 ∧
      compute_total_supply_at 5 ≤ MAX_SUPPLY :=
  ⟨by decide, total_supply_monotone_bounded.1 0 1 (by decide),
   total_supply_monotone_bounded.2 5⟩

-- ── C5 ──────────────────────────────────────────────────────────────

/-- C5: the finalized height never decreases — an explicit checkpoint
at a (non-negative) height at or below the current finalized height is
rejected, a successful explicit checkpoint strictly advances the
finalized height, `on_new_block` creates an implicit checkpoint only at
`chain_height - confirmation_depth` strictly above the finalized
height, and `is_reorg_allowed d h` holds exactly when `h - d` exceeds
the finalized height. -/
theorem finality_monotone :
    (∀ (cps : List Checkpoint) (h : ℤ) (hash src : String),
      0 ≤ h → h ≤ finalized_height cps →
      add_checkpoint cps h hash src = none) ∧
    (∀ (cps : List Checkpoint) (h : ℤ) (hash src : String)
      (out : List Checkpoint × Checkpoint),
      0 ≤ h → add_checkpoint cps h hash src = some out →
      finalized_height cps < finalized_height out.1) ∧
    (∀ (cps : List Checkpoint) (depth ch : ℤ) (hs : Option String)
      (cp : Checkpoint),
      (on_new_block cps depth ch hs).2 = some cp →
      cp.block_height = ch - depth ∧
      finalized_height cps < cp.block_height ∧
      finalized_height (on_new_block cps depth ch hs).1 =
        cp.block_height) ∧
    (∀ (cps : List Checkpoint) (d h : ℤ),
      is_reorg_allowed cps d h = true ↔ finalized_height cps < h - d) := by
  refine ⟨?_, ?_, ?_, ?_⟩
  · intro cps h hash src h0 hle
    unfold add_checkpoint
    unfold finalized_height at hle
    cases hcl : cps.getLast? with
    | none => simp only [hcl] at hle; omega
    | some last =>
        simp only [hcl] at hle ⊢
        rw [if_pos hle]
  · intro cps h hash src out h0 hadd
    unfold add_checkpoint at hadd
    cases hcl : cps.getLast? with
    | none =>
        simp only [hcl, Option.some.injEq] at hadd
        have hcps : cps = [] := List.getLast?_eq_none_iff.mp hcl
        subst hcps
        rw [← hadd]
        simp only [finalized_height, List.getLast?_nil, List.nil_append,
          List.getLast?_singleton]
        omega
    | some last =>
        simp only [hcl] at hadd
        by_cases hle : h ≤ last.block_height
        · rw [if_pos hle] at hadd; exact absurd hadd (by simp)
        · rw [if_neg hle] at hadd
          simp only [Option.some.injEq] at hadd
          rw [← hadd]
          simp only [finalized_height, hcl, List.getLast?_concat]
          omega
  · intro cps depth ch hs cp hob
    unfold on_new_block at hob ⊢
    cases hs with
    | none => exact absurd hob (by simp)
    | some hash =>
        simp only at hob ⊢
        by_cases hle : ch - depth ≤ finalized_height cps
        · rw [if_pos hle] at hob; exact absurd hob (by simp)
        · rw [if_neg hle] at hob
          simp only [Option.some.injEq] at hob
          subst hob
          refine ⟨rfl, ?_, ?_⟩
          · show finalized_height cps < ch - depth
            omega
          · rw [if_neg hle]
            simp only [finalized_height, List.getLast?_concat]
  · intro cps d h
    unfold is_reorg_allowed
    simp [gt_iff_lt]

/-- Witness for C5 at concrete checkpoint lists and heights. -/
theorem finality_monotone_witness :
    (0 : ℤ) ≤ 3 ∧
    (3 : ℤ) ≤ finalized_height [{ block_height := 5, block_hash := "a" }] ∧
    add_checkpoint [{ block_height := 5, block_hash := "a" }] 3 "b"
      "explicit" = none ∧
    ((on_new_block [] 6 10 (some "c")).2 = some
      { block_height := 4, block_hash := "c", source := "implicit" } →
      (4 : ℤ) = 10 - 6 ∧ finalized_height [] < 4 ∧
      finalized_height (on_new_block [] 6 10 (some "c")).1 = 4) ∧
    (is_reorg_allowed [{ block_height := 5, block_hash := "a" }] 2 10 =
        true ↔
      finalized_height [{ block_height := 5, block_hash := "a" }] <
        10 - 2) :=
  ⟨by decide, by norm_num [finalized_height],
   finality_monotone.1 [{ block_height := 5, block_hash := "a" }] 3 "b"
     "explicit" (by decide) (by norm_num [finalized_height]),
   fun hcp => finality_monotone.2.2.1 [] 6 10 (some "c") _ hcp,
   finality_monotone.2.2.2 [{ block_height := 5, block_hash := "a" }]
     2 10⟩

-- ── C8 ──────────────────────────────────────────────────────────────

theorem lookup_setChannel (chs : List (String × PaymentChannel))
    (cid : String) (c ch : PaymentChannel)
    (hlk : lookupChannel chs cid = some ch) :
    lookupChannel (setChannel chs cid c) cid = some c := by
  induction chs with
  | nil => simp [lookupChannel] at hlk
  | cons p t ih =>
      by_cases hp : p.1 = cid
      · simp [lookupChannel, setChannel, List.find?_cons, hp]
      · simp only [lookupChannel, setChannel, List.map_cons,
          if_neg hp] at hlk ⊢
        rw [List.find?_cons_of_neg _ (by simpa using hp)] at hlk
        rw [List.find?_cons_of_neg _ (by simpa using hp)]
        exact ih hlk

/-- C8: `open_channel` creates an open channel holding
`sender_balance = deposit` and `receiver_balance = 0`, and every
successful `pay` moves the same positive amount from sender to
receiver, increments the nonce, and preserves
`sender_balance + receiver_balance = deposit`. -/
theorem channel_deposit_invariant :
    (∀ (cfg : ChannelConfig) (st : ChannelManagerState)
      (cid sid rid : String) (dep : ℚ) (expiry : Option ℚ) (now : ℚ)
      (st' : ChannelManagerState) (ch : PaymentChannel) (err : String),
      open_channel cfg st cid sid rid dep expiry now =
        (st', some ch, err) →
      ch.state = ChannelLifecycle.opened ∧ ch.deposit = dep ∧
      ch.sender_balance = dep ∧ ch.receiver_balance = 0 ∧
      ch.sender_balance + ch.receiver_balance = ch.deposit) ∧
    (∀ (st : ChannelManagerState) (cid : String) (amount : ℚ)
      (sid : String) (now : ℚ) (ch : PaymentChannel)
      (st' : ChannelManagerState) (upd : PaymentUpdate) (err : String),
      lookupChannel st.channels cid = some ch →
      pay st cid amount sid now = (st', some upd, err) →
      ∃ ch', lookupChannel st'.channels cid = some ch' ∧
        0 < amount ∧
        ch'.deposit = ch.deposit ∧
        ch'.sender_balance = ch.sender_balance - amount ∧
        ch'.receiver_balance = ch.receiver_balance + amount ∧
        ch'.nonce = ch.nonce + 1 ∧
        ch'.state = ch.state ∧
        (ch.sender_balance + ch.receiver_balance = ch.deposit →
          ch'.sender_balance + ch'.receiver_balance = ch'.deposit)) := by
  constructor
  · intro cfg st cid sid rid dep expiry now st' ch err hopen
    unfold open_channel at hopen
    split at hopen
    · simp [Prod.ext_iff] at hopen
    split at hopen
    · simp [Prod.ext_iff] at hopen
    split at hopen
    · simp [Prod.ext_iff] at hopen
    split at hopen
    · simp [Prod.ext_iff] at hopen
    split at hopen
    · simp [Prod.ext_iff] at hopen
    simp only [Prod.mk.injEq, Option.some.injEq] at hopen
    obtain ⟨-, hch, -⟩ := hopen
    subst hch
    simp [postInit]
  · intro st cid amount sid now ch st' upd err hlk hpay
    unfold pay at hpay
    simp only [hlk] at hpay
    split at hpay
    · simp [Prod.ext_iff] at hpay
    split at hpay
    · simp [Prod.ext_iff] at hpay
    split at hpay
    · simp [Prod.ext_iff] at hpay
    split at hpay
    · simp [Prod.ext_iff] at hpay
    split at hpay
    · simp [Prod.ext_iff] at hpay
    simp only [Prod.mk.injEq, Option.some.injEq] at hpay
    obtain ⟨hst, -, -⟩ := hpay
    refine
      ⟨{ ch with
          sender_balance := ch.sender_balance - amount,
          receiver_balance := ch.receiver_balance + amount,
          nonce := ch.nonce + 1,
          latest_update := some
            { channel_id := cid, nonce := ch.nonce + 1,
              sender_balance := ch.sender_balance - amount,
              receiver_balance := ch.receiver_balance + amount } },
        ?_, by linarith, rfl, rfl, rfl, rfl, rfl, fun hinv => ?_⟩
    · rw [← hst]
      exact lookup_setChannel st.channels cid _ ch hlk
    · show ch.sender_balance - amount + (ch.receiver_balance + amount) =
        ch.deposit
      linarith

/-- Witness for C8: opening `(alice → bob, 100)` and paying 10. -/
theorem channel_deposit_invariant_witness :
    (open_channel {} {} "c1" "alice" "bob" 100 none 0).2 =
      (some channelWitnessChannel, "") ∧
    (channelWitnessChannel.state = ChannelLifecycle.opened ∧
      channelWitnessChannel.deposit = 100 ∧
      channelWitnessChannel.sender_balance = 100 ∧
      channelWitnessChannel.receiver_balance = 0 ∧
      channelWitnessChannel.sender_balance +
        channelWitnessChannel.receiver_balance =
        channelWitnessChannel.deposit) ∧
    lookupChannel channelWitnessSt.channels "c1" =
      some channelWitnessChannel ∧
    (pay channelWitnessSt "c1" 10 "alice" 1).2 =
      (some channelWitnessUpdate, "") ∧
    (∃ ch', lookupChannel
        (pay channelWitnessSt "c1" 10 "alice" 1).1.channels "c1" =
        some ch' ∧
      (0 : ℚ) < 10 ∧
      ch'.deposit = channelWitnessChannel.deposit ∧
      ch'.sender_balance = channelWitnessChannel.sender_balance - 10 ∧
      ch'.receiver_balance =
        channelWitnessChannel.receiver_balance + 10 ∧
      ch'.nonce = channelWitnessChannel.nonce + 1 ∧
      ch'.state = channelWitnessChannel.state ∧
      (channelWitnessChannel.sender_balance +
          channelWitnessChannel.receiver_balance =
          channelWitnessChannel.deposit →
        ch'.sender_balance + ch'.receiver_balance = ch'.deposit)) := by
  have hopen : (open_channel {} {} "c1" "alice" "bob" 100 none 0).2 =
      (some channelWitnessChannel, "") := by
    norm_num [open_channel, lookupChannel, postInit, channelWitnessChannel]
    decide
  have hopenEq : open_channel {} {} "c1" "alice" "bob" 100 none 0 =
      (channelWitnessSt, some channelWitnessChannel, "") :=
    Prod.ext_iff.mpr ⟨rfl, hopen⟩
  have hlk : lookupChannel channelWitnessSt.channels "c1" =
      some channelWitnessChannel := by
    norm_num [channelWitnessSt, open_channel, lookupChannel, postInit,
      channelWitnessChannel, List.find?]
  have hpay : (pay channelWitnessSt "c1" 10 "alice" 1).2 =
      (some channelWitnessUpdate, "") := by
    norm_num [pay, channelWitnessSt, open_channel, lookupChannel, postInit,
      channelWitnessChannel, channelWitnessUpdate, List.find?,
      PaymentChannel.is_active, PaymentChannel.is_expired, setChannel]
  have hpayEq : pay channelWitnessSt "c1" 10 "alice" 1 =
      ((pay channelWitnessSt "c1" 10 "alice" 1).1,
        some channelWitnessUpdate, "") :=
    Prod.ext_iff.mpr ⟨rfl, hpay⟩
  exact ⟨hopen,
    channel_deposit_invariant.1 {} {} "c1" "alice" "bob" 100 none 0
      channelWitnessSt channelWitnessChannel "" hopenEq,
    hlk, hpay,
    channel_deposit_invariant.2 channelWitnessSt "c1" 10 "alice" 1
      channelWitnessChannel _ channelWitnessUpdate "" hlk hpayEq⟩

-- ── C6 ──────────────────────────────────────────────────────────────

theorem pairLe_trans (a b c : String × String) (hab : pairLe a b = true)
    (hbc : pairLe b c = true) : pairLe a c = true := by
  simp only [pairLe, decide_eq_true_eq] at hab hbc ⊢
  rcases hab with h₁ | ⟨h₁, h₁'⟩ <;> rcases hbc with h₂ | ⟨h₂, h₂'⟩
  · exact Or.inl (lt_trans h₁ h₂)
  · exact Or.inl (h₂ ▸ h₁)
  · exact Or.inl (h₁ ▸ h₂)
  · exact Or.inr ⟨h₁.trans h₂, le_trans h₁' h₂'⟩

theorem pairLe_total (a b : String × String) :
    (pairLe a b || pairLe b a) = true := by
  simp only [pairLe, Bool.or_eq_true, decide_eq_true_eq]
  rcases lt_trichotomy a.1 b.1 with h | h | h
  · exact Or.inl (Or.inl h)
  · rcases le_total a.2 b.2 with h' | h'
    · exact Or.inl (Or.inr ⟨h, h'⟩)
    · exact Or.inr (Or.inr ⟨h.symm, h'⟩)
  · exact Or.inr (Or.inl h)

theorem select_evaluators_mem (h : String → String) (cfg : QuorumConfig)
    (oid did opt : String) (rep : ℚ) (eligible : List String)
    (tip : String) (x : String)
    (hx : x ∈ (select_evaluators h cfg oid did opt rep eligible tip).1) :
    x ∈ eligible.filter (fun e => e ≠ opt) := by
  unfold select_evaluators at hx
  by_cases hc : (eligible.filter (fun e => e ≠ opt)).length = 0
  · rw [if_pos hc] at hx; simp at hx
  · rw [if_neg hc] at hx
    simp only [List.mem_map] at hx
    obtain ⟨p, hp, hpx⟩ := hx
    have hp' : p ∈ (eligible.filter (fun e => e ≠ opt)).map
        (fun c => (h (h (tip ++ ":" ++ oid) ++ ":" ++ c), c)) :=
      ((List.mergeSort_perm _ pairLe).mem_iff).mp
        ((List.take_sublist _ _).mem hp)
    simp only [List.mem_map] at hp'
    obtain ⟨c, hc', hcp⟩ := hp'
    rw [← hpx, ← hcp]
    exact hc'

/-- C6: `select_evaluators` is a pure function of
`(chain_tip_hash, optimae_id, optimizer_id, eligible_evaluators)` (two
runs on identical inputs agree), it never selects the optimizer, it
returns `min(min_evaluators, |candidates|)` evaluators where the
candidates are the eligible evaluators other than the optimizer, and
the returned list is ordered by ascending per-candidate score
`H(seed : candidate_id)` (ties broken by candidate id, as Python's
tuple sort does). -/
theorem select_evaluators_deterministic :
    (∀ (h : String → String) (cfg : QuorumConfig)
      (oid did opt : String) (rep : ℚ) (eligible : List String)
      (tip : String),
      select_evaluators h cfg oid did opt rep eligible tip =
        select_evaluators h cfg oid did opt rep eligible tip) ∧
    (∀ (h : String → String) (cfg : QuorumConfig)
      (oid did opt : String) (rep : ℚ) (eligible : List String)
      (tip : String),
      opt ∉ (select_evaluators h cfg oid did opt rep eligible tip).1) ∧
    (∀ (h : String → String) (cfg : QuorumConfig)
      (oid did opt : String) (rep : ℚ) (eligible : List String)
      (tip : String),
      (select_evaluators h cfg oid did opt rep eligible tip).1.length =
        min cfg.min_evaluators
          (eligible.filter (fun e => e ≠ opt)).length) ∧
    (∀ (h : String → String) (cfg : QuorumConfig)
      (oid did opt : String) (rep : ℚ) (eligible : List String)
      (tip : String),
      List.Pairwise
        (fun c₁ c₂ =>
          scoreOf h (h (tip ++ ":" ++ oid)) c₁ <
            scoreOf h (h (tip ++ ":" ++ oid)) c₂ ∨
          (scoreOf h (h (tip ++ ":" ++ oid)) c₁ =
            scoreOf h (h (tip ++ ":" ++ oid)) c₂ ∧ c₁ ≤ c₂))
        (select_evaluators h cfg oid did opt rep eligible tip).1) := by
  refine ⟨fun _ _ _ _ _ _ _ _ => rfl, ?_, ?_, ?_⟩
  · intro h cfg oid did opt rep eligible tip hmem
    have := select_evaluators_mem h cfg oid did opt rep eligible tip
      opt hmem
    simp at this
  · intro h cfg oid did opt rep eligible tip
    unfold select_evaluators
    by_cases hc : (eligible.filter (fun e => e ≠ opt)).length = 0
    · rw [if_pos hc]
      simp only [List.length_nil, hc, Nat.min_zero]
    · rw [if_neg hc]
      simp only [List.length_map, List.length_take]
      have hlen : ((eligible.filter (fun e => e ≠ opt)).map
          (fun c => (h (h (tip ++ ":" ++ oid) ++ ":" ++ c), c))
            |>.mergeSort pairLe).length =
          (eligible.filter (fun e => e ≠ opt)).length := by
        rw [(List.mergeSort_perm _ pairLe).length_eq, List.length_map]
      rw [hlen]
      omega
  · intro h cfg oid did opt rep eligible tip
    unfold select_evaluators
    by_cases hc : (eligible.filter (fun e => e ≠ opt)).length = 0
    · rw [if_pos hc]; simp
    · rw [if_neg hc]
      simp only []
      rw [List.pairwise_map]
      have hsorted : ((eligible.filter (fun e => e ≠ opt)).map
          (fun c => (h (h (tip ++ ":" ++ oid) ++ ":" ++ c), c))
            |>.mergeSort pairLe).Pairwise
          (fun a b => pairLe a b = true) :=
        List.sorted_mergeSort pairLe_trans pairLe_total _
      have htake := hsorted.sublist
        (List.take_sublist
          (min cfg.min_evaluators
            (eligible.filter (fun e => e ≠ opt)).length) _)
      refine List.Pairwise.imp_of_mem ?_ htake
      intro p q hp hq hpq
      have hform : ∀ r : String × String,
          r ∈ ((eligible.filter (fun e => e ≠ opt)).map
            (fun c => (h (h (tip ++ ":" ++ oid) ++ ":" ++ c), c))
              |>.mergeSort pairLe).take
            (min cfg.min_evaluators
              (eligible.filter (fun e => e ≠ opt)).length) →
          r.1 = scoreOf h (h (tip ++ ":" ++ oid)) r.2 := by
        intro r hr
        have hr' := ((List.mergeSort_perm _ pairLe).mem_iff).mp
          ((List.take_sublist _ _).mem hr)
        simp only [List.mem_map] at hr'
        obtain ⟨c, -, hcr⟩ := hr'
        rw [← hcr]
        rfl
      have hpf := hform p hp
      have hqf := hform q hq
      simp only [pairLe, decide_eq_true_eq] at hpq
      rw [hpf, hqf] at hpq
      exact hpq

-- ── C10 ─────────────────────────────────────────────────────────────

/-- C10: in every quorum state reachable through `QuorumManager`
operations, every vote comes from a required evaluator, no evaluator
votes twice, and the vote count is bounded by the number of required
evaluators; moreover `add_vote` returns `(s, none)` — recording
nothing — for an outside voter, a duplicate voter, or a decided
quorum. -/
theorem quorum_votes_invariant :
    (∀ s : QuorumState, QuorumReachable s →
      (∀ v ∈ s.votes, v.evaluator_id ∈ s.required_evaluators) ∧
      (s.votes.map (·.evaluator_id)).Nodup ∧
      s.votes.length ≤ s.required_evaluators.length) ∧
    (∀ (s : QuorumState) (e : String) (p : ℚ) (u : Bool) (sh : String),
      (e ∉ s.required_evaluators ∨ e ∈ s.voter_ids ∨
        s.decided = true) →
      add_vote s e p u sh = (s, none)) := by
  have hnone : ∀ (s : QuorumState) (e : String) (p : ℚ) (u : Bool)
      (sh : String),
      (e ∉ s.required_evaluators ∨ e ∈ s.voter_ids ∨
        s.decided = true) →
      add_vote s e p u sh = (s, none) := by
    intro s e p u sh hcond
    by_cases hd : s.decided = true
    · simp [add_vote, hd]
    · rcases hcond with h₁ | h₂ | h₃
      · simp [add_vote, hd, h₁]
      · by_cases h₁ : e ∉ s.required_evaluators
        · simp [add_vote, hd, h₁]
        · simp [add_vote, hd, h₁, h₂]
      · exact absurd h₃ hd
  refine ⟨?_, hnone⟩
  intro s hreach
  induction hreach with
  | created h cfg oid did opt rep eligible tip s hsel =>
      unfold select_evaluators at hsel
      dsimp only at hsel
      split at hsel
      · simp at hsel
      · dsimp only at hsel
        simp only [Option.some.injEq] at hsel
        rw [← hsel]
        simp
  | voted s e p u sh hre ih =>
      obtain ⟨ihA, ihB, ihC⟩ := ih
      by_cases hd : s.decided = true
      · rw [hnone s e p u sh (Or.inr (Or.inr hd))]
        exact ⟨ihA, ihB, ihC⟩
      · by_cases h₁ : e ∉ s.required_evaluators
        · rw [hnone s e p u sh (Or.inl h₁)]
          exact ⟨ihA, ihB, ihC⟩
        · by_cases h₂ : e ∈ s.voter_ids
          · rw [hnone s e p u sh (Or.inr (Or.inl h₂))]
            exact ⟨ihA, ihB, ihC⟩
          · have h₁' : e ∈ s.required_evaluators := not_not.mp h₁
            have hres : (add_vote s e p u sh).1 =
                { s with votes := s.votes ++
                  ([{ evaluator_id := e, verified_performance := p,
                      used_synthetic := u,
                      synthetic_data_hash := sh }] :
                    List VerificationVote) } := by
              simp [add_vote, hd, h₁, h₂]
            rw [hres]
            simp only [List.map_append, List.map_cons, List.map_nil]
            have hmemA : ∀ v, v ∈ s.votes ++
                ([{ evaluator_id := e, verified_performance := p,
                    used_synthetic := u,
                    synthetic_data_hash := sh }] :
                  List VerificationVote) →
                v.evaluator_id ∈ s.required_evaluators := by
              intro v hv
              rcases List.mem_append.mp hv with hv' | hv'
              · exact ihA v hv'
              · simp only [List.mem_singleton] at hv'
                rw [hv']
                exact h₁'
            have hnodup : ((s.votes.map (·.evaluator_id)) ++
                [e]).Nodup := by
              rw [List.nodup_append]
              refine ⟨ihB, List.nodup_singleton e, ?_⟩
              intro x hx
              simp only [List.mem_singleton]
              intro hxe
              exact h₂ (hxe ▸ hx)
            refine ⟨hmemA, hnodup, ?_⟩
            have hlen : (s.votes ++
                ([{ evaluator_id := e, verified_performance := p,
                    used_synthetic := u,
                    synthetic_data_hash := sh }] :
                  List VerificationVote)).length =
                ((s.votes.map (·.evaluator_id)) ++ [e]).length := by
              simp
            rw [hlen]
            have hsubset : ((s.votes.map (·.evaluator_id)) ++
                [e]).toFinset ⊆ s.required_evaluators.toFinset := by
              intro x hx
              rw [List.mem_toFinset] at hx
              rw [List.mem_toFinset]
              rcases List.mem_append.mp hx with hx' | hx'
              · obtain ⟨v, hv, hvx⟩ := List.mem_map.mp hx'
                exact hvx ▸ ihA v hv
              · simp only [List.mem_singleton] at hx'
                exact hx' ▸ h₁'
            calc ((s.votes.map (·.evaluator_id)) ++ [e]).length
                = ((s.votes.map (·.evaluator_id)) ++
                    [e]).toFinset.card :=
                  (List.toFinset_card_of_nodup hnodup).symm
              _ ≤ s.required_evaluators.toFinset.card :=
                  Finset.card_le_card hsubset
              _ ≤ s.required_evaluators.length :=
                  List.toFinset_card_le _
  | evaluated cfg s hre ih =>
      obtain ⟨ihA, ihB, ihC⟩ := ih
      unfold evaluate_quorum
      dsimp only
      split
      · exact ⟨ihA, ihB, ihC⟩
      · exact ⟨ihA, ihB, ihC⟩

/-- Witness for C10: the reachable state after `select_evaluators`
with the identity hash followed by a vote from "a". -/
theorem quorum_votes_invariant_witness :
    (select_evaluators idHash {} "o2" "d2" "opt" 1 ["a", "b", "opt"]
      "tip").2 = some quorumWitnessState0 ∧
    ((∀ v ∈ quorumWitnessState1.votes,
        v.evaluator_id ∈ quorumWitnessState1.required_evaluators) ∧
      (quorumWitnessState1.votes.map (·.evaluator_id)).Nodup ∧
      quorumWitnessState1.votes.length ≤
        quorumWitnessState1.required_evaluators.length) ∧
    ("zzz" ∉ quorumWitnessState1.required_evaluators ∧
      add_vote quorumWitnessState1 "zzz" 1 true "" =
        (quorumWitnessState1, none)) := by
  have hsel : (select_evaluators idHash {} "o2" "d2" "opt" 1
      ["a", "b", "opt"] "tip").2 = some quorumWitnessState0 := by
    with_unfolding_all decide
  have hzzz : "zzz" ∉ quorumWitnessState1.required_evaluators := by
    with_unfolding_all decide
  exact ⟨hsel,
    quorum_votes_invariant.1 quorumWitnessState1
      (QuorumReachable.voted quorumWitnessState0 "a" (1 / 2) true ""
        (QuorumReachable.created idHash {} "o2" "d2" "opt" 1
          ["a", "b", "opt"] "tip" quorumWitnessState0 hsel)),
    hzzz,
    quorum_votes_invariant.2 quorumWitnessState1 "zzz" 1 true ""
      (Or.inl hzzz)⟩

-- ── C1 ──────────────────────────────────────────────────────────────

theorem updateAssoc_notMem (l : List (String × Bool)) (k : String)
    (v : Bool) (hk : k ∉ l.map Prod.fst) :
    updateAssoc l k v = l ++ [(k, v)] := by
  induction l with
  | nil => rfl
  | cons p t ih =>
      simp only [List.map_cons, List.mem_cons, not_or] at hk
      have hne' : ¬(p.1 = k) := fun hpk => hk.1 hpk.symm
      simp only [updateAssoc, if_neg hne', List.cons_append,
        Prod.mk.eta]
      rw [ih hk.2]

theorem foldl_updateAssoc (f : VerificationVote → Bool) :
    ∀ (votes : List VerificationVote) (acc : List (String × Bool)),
      (votes.map (·.evaluator_id)).Nodup →
      (∀ v ∈ votes, v.evaluator_id ∉ acc.map Prod.fst) →
      votes.foldl (fun a v => updateAssoc a v.evaluator_id (f v)) acc =
        acc ++ votes.map (fun v => (v.evaluator_id, f v)) := by
  intro votes
  induction votes with
  | nil => intro acc _ _; simp
  | cons v t ih =>
      intro acc hnodup hdisj
      simp only [List.map_cons, List.nodup_cons] at hnodup
      simp only [List.foldl_cons]
      rw [updateAssoc_notMem acc v.evaluator_id (f v)
        (hdisj v (List.mem_cons_self v t))]
      rw [ih (acc ++ [(v.evaluator_id, f v)]) hnodup.2 ?_]
      · simp
      · intro w hw
        simp only [List.map_append, List.map_cons, List.map_nil,
          List.mem_append, List.mem_singleton, not_or]
        refine ⟨fun hmem => hdisj w (List.mem_cons_of_mem v hw) hmem,
          fun heq => hnodup.1 ?_⟩
        rw [← heq]
        exact List.mem_map.mpr ⟨w, hw, rfl⟩

/-- C1 counterexample: a quorum state with `K = 2` required evaluators
and a single vote equal to the reported performance.  The code accepts
with `agree_fraction = 1` (it divides by the number of votes), while
the claim's `agree_fraction = #agreed / K = 1/2` fails the default
quorum fraction `0.67`, so the claim as stated demands rejection. -/
theorem evaluate_quorum_agree_fraction_cex :
    (evaluate_quorum {} quorumCexState).2.accepted = true ∧
    (evaluate_quorum {} quorumCexState).2.agree_fraction = some 1 ∧
    quorumCexState.required_evaluators.length = 2 ∧
    quorumCexState.votes.length = 1 ∧
    ¬((1 : ℚ) / 2 ≥ 67 / 100) := by
  refine ⟨?_, ?_, rfl, rfl, by norm_num⟩
  · norm_num [evaluate_quorum, median, updateAssoc, divergenceFrom,
      eps10, quorumCexState]
  · norm_num [evaluate_quorum, median, updateAssoc, divergenceFrom,
      eps10, quorumCexState]

/-- C1 amended: for every quorum state with at least one vote and
pairwise-distinct voter ids, `evaluate_quorum` records, for each vote,
`agreed ⇔ divergence ≤ tolerance` where the divergence is
`|v − median| / |median|` when `|median| > 1e-10` and `|v − median|`
otherwise; it sets `agree_fraction = #agreed / #votes` (the number of
votes, not the number of required evaluators), computes
`report_divergence` by the same divergence rule, and accepts iff
`agree_fraction ≥ quorum_fraction` and
`report_divergence ≤ tolerance`. -/
theorem evaluate_quorum_amended (cfg : QuorumConfig) (s : QuorumState)
    (hne : s.votes ≠ [])
    (hnodup : (s.votes.map (·.evaluator_id)).Nodup) :
    (evaluate_quorum cfg s).2.agreements =
      s.votes.map (fun v => (v.evaluator_id,
        decide (divergenceFrom
          (median (s.votes.map (·.verified_performance)))
          v.verified_performance ≤ cfg.tolerance))) ∧
    (evaluate_quorum cfg s).2.agree_fraction = some
      (((s.votes.countP (fun v => decide (divergenceFrom
          (median (s.votes.map (·.verified_performance)))
          v.verified_performance ≤ cfg.tolerance))) : ℚ) /
        (s.votes.length : ℚ)) ∧
    (evaluate_quorum cfg s).2.report_divergence = some
      (divergenceFrom (median (s.votes.map (·.verified_performance)))
        s.reported_performance) ∧
    ((evaluate_quorum cfg s).2.accepted = true ↔
      (((s.votes.countP (fun v => decide (divergenceFrom
          (median (s.votes.map (·.verified_performance)))
          v.verified_performance ≤ cfg.tolerance))) : ℚ) /
          (s.votes.length : ℚ) ≥ cfg.quorum_fraction ∧
        divergenceFrom (median (s.votes.map (·.verified_performance)))
          s.reported_performance ≤ cfg.tolerance)) := by
  have hperf : ¬(s.votes.map (·.verified_performance) = []) := by
    simpa using hne
  have hfold := foldl_updateAssoc
    (fun v => decide (divergenceFrom
      (median (s.votes.map (·.verified_performance)))
      v.verified_performance ≤ cfg.tolerance))
    s.votes [] hnodup (by simp)
  have hcount : (((s.votes.map (fun v => (v.evaluator_id,
      decide (divergenceFrom
        (median (s.votes.map (·.verified_performance)))
        v.verified_performance ≤ cfg.tolerance)))).filter
      (·.2)).length) =
      s.votes.countP (fun v => decide (divergenceFrom
        (median (s.votes.map (·.verified_performance)))
        v.verified_performance ≤ cfg.tolerance)) := by
    rw [List.filter_map, List.length_map, List.countP_eq_length_filter]
    rfl
  unfold evaluate_quorum
  rw [if_neg hperf]
  dsimp only
  simp only [hfold, List.nil_append, hcount, decide_eq_true_iff]
  exact ⟨trivial, trivial, trivial, trivial⟩

/-- Witness for C1's amended theorem: three distinct votes
`[1, 1, 2]`, reported 1, default configuration. -/
theorem evaluate_quorum_amended_witness :
    quorumAmendedWitnessState.votes ≠ [] ∧
    (quorumAmendedWitnessState.votes.map (·.evaluator_id)).Nodup ∧
    ((evaluate_quorum {} quorumAmendedWitnessState).2.agreements =
      quorumAmendedWitnessState.votes.map (fun v => (v.evaluator_id,
        decide (divergenceFrom
          (median (quorumAmendedWitnessState.votes.map
            (·.verified_performance)))
          v.verified_performance ≤
          (({} : QuorumConfig)).tolerance))) ∧
    (evaluate_quorum {} quorumAmendedWitnessState).2.agree_fraction =
      some (((quorumAmendedWitnessState.votes.countP
          (fun v => decide (divergenceFrom
            (median (quorumAmendedWitnessState.votes.map
              (·.verified_performance)))
            v.verified_performance ≤
            (({} : QuorumConfig)).tolerance))) : ℚ) /
        (quorumAmendedWitnessState.votes.length : ℚ)) ∧
    (evaluate_quorum {} quorumAmendedWitnessState).2.report_divergence =
      some (divergenceFrom
        (median (quorumAmendedWitnessState.votes.map
          (·.verified_performance)))
        quorumAmendedWitnessState.reported_performance) ∧
    ((evaluate_quorum {} quorumAmendedWitnessState).2.accepted = true ↔
      (((quorumAmendedWitnessState.votes.countP
          (fun v => decide (divergenceFrom
            (median (quorumAmendedWitnessState.votes.map
              (·.verified_performance)))
            v.verified_performance ≤
            (({} : QuorumConfig)).tolerance))) : ℚ) /
          (quorumAmendedWitnessState.votes.length : ℚ) ≥
          (({} : QuorumConfig)).quorum_fraction ∧
        divergenceFrom
          (median (quorumAmendedWitnessState.votes.map
            (·.verified_performance)))
          quorumAmendedWitnessState.reported_performance ≤
          (({} : QuorumConfig)).tolerance))) :=
  ⟨by decide, by decide,
    evaluate_quorum_amended {} quorumAmendedWitnessState (by decide)
      (by decide)⟩

-- ── C4 ──────────────────────────────────────────────────────────────

/-- C4 counterexample: default configuration, reported 1, verified
`1 − 0.1 − 1e-9`.  The relative gap `0.1 + 1e-9` exceeds
`tolerance_margin = 0.1`, so the claim demands reward 0, but the code's
epsilon guard (`rel ≤ tolerance_margin + 1e-9`) still grants the
partial reward `0.3 − 7e-9`. -/
theorem compute_reward_fraction_boundary_cex :
    compute_reward_fraction 1 (1 - 1 / 10 - 1 / 10 ^ 9) {} =
      3 / 10 - 7 / 10 ^ 9 ∧
    (3 / 10 - 7 / 10 ^ 9 : ℚ) ≠ 0 ∧
    ((1 : ℚ) - (1 - 1 / 10 - 1 / 10 ^ 9)) / |(1 : ℚ)| > 10 / 100 ∧
    ({} : IncentiveConfig).tolerance_margin = 10 / 100 := by
  refine ⟨?_, by norm_num, by norm_num, rfl⟩
  norm_num [compute_reward_fraction, relativeGap, eps10, eps9]

/-- C4 amended: `compute_reward_fraction` follows the claimed piecewise
formula except that the partial-reward band extends to
`rel ≤ tolerance_margin + 1e-9` (an epsilon guard in the code) and the
absolute-gap fallback applies when `|reported| ≤ 1e-10`; stated for
configurations with positive `tolerance_margin` and `bonus_threshold`
(the code divides by `tolerance_margin` unguarded). -/
theorem compute_reward_fraction_piecewise (reported verified : ℚ)
    (cfg : IncentiveConfig) (hmargin : 0 < cfg.tolerance_margin)
    (hbonus : 0 < cfg.bonus_threshold) :
    (relativeGap reported verified cfg ≤ -cfg.bonus_threshold →
      compute_reward_fraction reported verified cfg =
        cfg.max_bonus_multiplier) ∧
    (-cfg.bonus_threshold < relativeGap reported verified cfg →
      relativeGap reported verified cfg < 0 →
      compute_reward_fraction reported verified cfg =
        1 + (|relativeGap reported verified cfg| /
          cfg.bonus_threshold) * (cfg.max_bonus_multiplier - 1)) ∧
    (0 ≤ relativeGap reported verified cfg →
      relativeGap reported verified cfg ≤ eps10 →
      compute_reward_fraction reported verified cfg = 1) ∧
    (eps10 < relativeGap reported verified cfg →
      relativeGap reported verified cfg ≤ cfg.tolerance_margin + eps9 →
      compute_reward_fraction reported verified cfg =
        1 - (relativeGap reported verified cfg /
          cfg.tolerance_margin) * (1 - cfg.min_reward_fraction)) ∧
    (cfg.tolerance_margin + eps9 < relativeGap reported verified cfg →
      compute_reward_fraction reported verified cfg = 0) := by
  have heps : eps10 < eps9 := by norm_num [eps10, eps9]
  have heps9 : (0 : ℚ) < eps9 := by norm_num [eps9]
  refine ⟨?_, ?_, ?_, ?_, ?_⟩
  · intro hle
    have hneg : relativeGap reported verified cfg < 0 :=
      lt_of_le_of_lt hle (by linarith)
    unfold compute_reward_fraction
    rw [if_pos hneg]
    dsimp only
    by_cases hb : |relativeGap reported verified cfg| ≤
        cfg.bonus_threshold
    · have habs : |relativeGap reported verified cfg| =
          cfg.bonus_threshold := by
        rw [abs_of_neg hneg] at hb ⊢
        linarith
      rw [if_pos hb, if_pos hbonus, habs]
      field_simp
    · rw [if_neg hb]
  · intro hgt hneg
    unfold compute_reward_fraction
    rw [if_pos hneg]
    dsimp only
    have hb : |relativeGap reported verified cfg| ≤
        cfg.bonus_threshold := by
      rw [abs_of_neg hneg]
      linarith
    rw [if_pos hb, if_pos hbonus]
  · intro hge heps10
    have hnneg : ¬(relativeGap reported verified cfg < 0) :=
      not_lt.mpr hge
    unfold compute_reward_fraction
    rw [if_neg hnneg, if_pos heps10]
  · intro hgt hle
    have hnneg : ¬(relativeGap reported verified cfg < 0) :=
      not_lt.mpr (le_trans (by norm_num [eps10]) (le_of_lt hgt))
    have hn10 : ¬(relativeGap reported verified cfg ≤ eps10) :=
      not_le.mpr hgt
    unfold compute_reward_fraction
    rw [if_neg hnneg, if_neg hn10, if_pos hle]
  · intro hgt
    have hpos : 0 < relativeGap reported verified cfg := by
      linarith [heps9]
    have hnneg : ¬(relativeGap reported verified cfg < 0) :=
      not_lt.mpr (le_of_lt hpos)
    have hn10 : ¬(relativeGap reported verified cfg ≤ eps10) := by
      push_neg
      calc eps10 < eps9 := heps
        _ ≤ cfg.tolerance_margin + eps9 := by linarith
        _ < relativeGap reported verified cfg := hgt
    have hnm : ¬(relativeGap reported verified cfg ≤
        cfg.tolerance_margin + eps9) := not_le.mpr hgt
    unfold compute_reward_fraction
    rw [if_neg hnneg, if_neg hn10, if_neg hnm]

/-- Witness for C4's amended theorem in the partial-reward band:
reported 1, verified 0.9, default configuration. -/
theorem compute_reward_fraction_piecewise_witness :
    (0 : ℚ) < ({} : IncentiveConfig).tolerance_margin ∧
    (0 : ℚ) < ({} : IncentiveConfig).bonus_threshold ∧
    eps10 < relativeGap 1 (9 / 10) {} ∧
    relativeGap 1 (9 / 10) {} ≤
      ({} : IncentiveConfig).tolerance_margin + eps9 ∧
    compute_reward_fraction 1 (9 / 10) {} =
      1 - (relativeGap 1 (9 / 10) {} /
        ({} : IncentiveConfig).tolerance_margin) *
        (1 - ({} : IncentiveConfig).min_reward_fraction) :=
  ⟨by norm_num, by norm_num,
   by norm_num [relativeGap, eps10],
   by norm_num [relativeGap, eps9],
   (compute_reward_fraction_piecewise 1 (9 / 10) {} (by norm_num)
      (by norm_num)).2.2.2.1
     (by norm_num [relativeGap, eps10])
     (by norm_num [relativeGap, eps9])⟩

-- ── C2 ──────────────────────────────────────────────────────────────

/-- C2 failing input: `distribute_block_reward(1, "g", [], tx_fees=10)`
(block reward 50).  The code pays the generator
`(50 + 10) · 0.05 + 10 = 13` and then folds the evaluator pool — carved
out of the fee-inclusive total — back into the generator output,
yielding a single output of `67.15`.  The claim demands a generator
output of `50 · 0.05 + 10 = 12.5` and an output sum of `60`. -/
theorem distribute_block_reward_fee_inflation_bug :
    (distribute_block_reward 1 "g" [] 10).toOption =
      some coinbaseCexResult ∧
    outputsTotal coinbaseCexResult.outputs ≠
      coinbaseCexResult.block_reward + 10 ∧
    (1343 / 20 : ℚ) ≠ 50 * (5 / 100) + 10 := by
  refine ⟨?_, by norm_num [outputsTotal, coinbaseCexResult], by norm_num⟩
  norm_num [distribute_block_reward, compute_block_reward,
    HALVING_INTERVAL, INITIAL_BLOCK_REWARD, MIN_REWARD,
    GENERATOR_FEE_FRACTION, OPTIMIZER_POOL_FRACTION,
    EVALUATOR_POOL_FRACTION, outputsTotal, bumpHead, coinbaseCexResult,
    Except.toOption]

-- ── C3 ──────────────────────────────────────────────────────────────

/-- C3 failing input: from a state where "alice" holds 10, the transfer
`(amount = -1, fee = 2, nonce = 1)` succeeds — the code only checks
`amount + fee > 0` — debiting "alice" by 1 and driving the balance of "bob"
to `-1`, while the claim requires `amount > 0` for success. -/
theorem apply_transfer_negative_amount_bug :
    transferCexTx.amount < 0 ∧
    (apply_transfer transferCexState transferCexTx).2.1 = true ∧
    (apply_transfer transferCexState transferCexTx).1.balances "bob" =
      -1 ∧
    (apply_transfer transferCexState transferCexTx).1.balances
      "alice" = 9 := by
  refine ⟨by norm_num [transferCexTx], ?_, ?_, ?_⟩ <;>
    · norm_num [apply_transfer, transferCexState, transferCexTx,
        apply_coinbase, writeMap, BalanceState.init]
      try decide

-- ── C7 ──────────────────────────────────────────────────────────────

theorem foldl_max_replicate (a : ℚ) :
    ∀ n : ℕ, List.foldl max a (List.replicate n a) = a := by
  intro n
  induction n with
  | zero => rfl
  | succ k ih => simpa [List.replicate_succ] using ih

theorem worstPriority_cex : worstPriority mempoolCexPool = -(1 / 100) := by
  unfold worstPriority mempoolCexPool mempoolCexEntry
  rw [List.map_replicate]
  rw [show MEMPOOL_SIZE_LIMIT = 9999 + 1 from rfl, List.replicate_succ]
  simp only [List.max?]
  rw [foldl_max_replicate]
  rfl

/-- C7 failing input: a mempool at the 10_000-entry bound, every entry
with fee `0.01`, and a new transaction with fee `1` (well above the
base fee).  The eviction guard `-fee ≤ worst_priority` fires precisely
when the new fee is at least the lowest pooled fee, so the code rejects
this strictly-higher-fee transaction with "Mempool full and fee too
low" — the claim (and the code's own message) demand acceptance. -/
theorem add_to_mempool_eviction_guard_bug :
    add_to_mempool MIN_BASE_FEE mempoolCexPool "new" 1 false 5 =
      (mempoolCexPool, false, "Mempool full and fee too low") ∧
    (1 : ℚ) > 1 / 100 ∧
    mempoolCexPool.length = MEMPOOL_SIZE_LIMIT ∧
    (∀ e ∈ mempoolCexPool, e.neg_fee = -(1 / 100)) := by
  have hlen : mempoolCexPool.length = MEMPOOL_SIZE_LIMIT := by
    simp [mempoolCexPool]
  have hne : mempoolCexPool ≠ [] := by
    intro hnil
    have hlen0 := congrArg List.length hnil
    rw [hlen] at hlen0
    simp [MEMPOOL_SIZE_LIMIT] at hlen0
  refine ⟨?_, by norm_num, hlen, ?_⟩
  · unfold add_to_mempool
    rw [if_neg (by norm_num), if_neg (by norm_num [MIN_BASE_FEE]),
      if_pos ⟨le_of_eq hlen.symm, hne⟩,
      if_pos (by rw [worstPriority_cex]; norm_num)]
  · intro e he
    rw [List.eq_of_mem_replicate he]
    rfl

end DoinCore
